import Mathlib

/-!
Verification of the ritmex-bot trading core: a shallow embedding of the
fee schedule, fee-aware close strategy, risk manager, volume admission
controller, position-PnL helpers and the resilient request layer, with
theorems settling the behavioural claims about them.

JavaScript numbers are modelled as exact rationals (ℚ); `null`,
`undefined` and non-finite numbers flowing into `Number.isFinite` checks
are modelled as `Option ℚ` with `none` for the non-finite cases.
-/

namespace RitmexBot

/-! ## Fee schedule (fee-calculator: ASTER_FEE_RATES) -/

def LIMIT_MAKER : ℚ := 1 / 10000

def MARKET_TAKER : ℚ := 35 / 100000

/-! ## Position PnL (computeGrossPnl / computePositionPnl) -/

structure PositionSnapshot where
  symbol : String
  positionAmt : ℚ
  entryPrice : ℚ

def computeGrossPnl (position : PositionSnapshot) (bestBid bestAsk : Option ℚ) : ℚ :=
  let priceForPnl := if position.positionAmt > 0 then bestBid else bestAsk
  match priceForPnl with
  | none => 0
  | some p =>
    let absAmt := |position.positionAmt|
    if position.positionAmt > 0 then (p - position.entryPrice) * absAmt
    else (position.entryPrice - p) * absAmt

def computePositionPnl (position : PositionSnapshot) (bestBid bestAsk : Option ℚ)
    (totalFees : ℚ) : ℚ :=
  let priceForPnl := if position.positionAmt > 0 then bestBid else bestAsk
  match priceForPnl with
  | none => 0
  | some p =>
    let absAmt := |position.positionAmt|
    let grossPnl :=
      if position.positionAmt > 0 then (p - position.entryPrice) * absAmt
      else (position.entryPrice - p) * absAmt
    grossPnl - totalFees

def computeNetPnl (position : PositionSnapshot) (bestBid bestAsk : Option ℚ)
    (tradeFees : ℚ) : ℚ :=
  computePositionPnl position bestBid bestAsk tradeFees

/-! ## Fee-aware close strategy (CloseStrategyManager) -/

inductive Side where
  | BUY
  | SELL
deriving DecidableEq, Repr

structure CloseStrategyConfig where
  minProfitMargin : ℚ
  timeoutMs : ℚ
  fallbackToOriginal : Bool
deriving DecidableEq, Repr

/-- The mutable fields of `CloseStrategyManager`. -/
structure CloseStrategyState where
  orderStartTime : ℚ
  isActive : Bool
deriving DecidableEq, Repr

inductive CloseStrategyKind where
  | profit_cover
  | original
deriving DecidableEq, Repr

structure CloseOrderInfo where
  side : Side
  price : ℚ
  amount : ℚ
  minProfitRequired : ℚ
  isTimeout : Bool
  strategy : CloseStrategyKind
deriving DecidableEq, Repr

def startCloseStrategy (_st : CloseStrategyState) (now : ℚ) : CloseStrategyState :=
  ⟨now, true⟩

def stopCloseStrategy (st : CloseStrategyState) : CloseStrategyState :=
  { st with isActive := false }

def calculateClosePrice (cfg : CloseStrategyConfig) (st : CloseStrategyState) (now : ℚ)
    (entryPrice amount : ℚ) (side : Side) (currentBid currentAsk : ℚ) : CloseOrderInfo :=
  let isTimeout := st.isActive && decide (now - st.orderStartTime > cfg.timeoutMs)
  if isTimeout && cfg.fallbackToOriginal then
    { side := side
      price := if side = Side.SELL then currentBid else currentAsk
      amount := amount
      minProfitRequired := 0
      isTimeout := true
      strategy := CloseStrategyKind.original }
  else
    let notional := entryPrice * amount
    let openFee := notional * LIMIT_MAKER
    let closeFee := notional * MARKET_TAKER
    let totalFees := openFee + closeFee
    let minProfitRequired := totalFees + notional * cfg.minProfitMargin
    let closePrice :=
      if side = Side.SELL then min (entryPrice + minProfitRequired / amount) currentBid
      else max (entryPrice - minProfitRequired / amount) currentAsk
    { side := side
      price := closePrice
      amount := amount
      minProfitRequired := minProfitRequired
      isTimeout := false
      strategy := CloseStrategyKind.profit_cover }

def shouldUseMarketClose (cfg : CloseStrategyConfig) (st : CloseStrategyState) (now : ℚ)
    (entryPrice amount : ℚ) (side : Side) (currentBid currentAsk : ℚ) : Bool :=
  let closeInfo := calculateClosePrice cfg st now entryPrice amount side currentBid currentAsk
  if closeInfo.strategy = CloseStrategyKind.profit_cover then
    let currentPrice := if side = Side.SELL then currentBid else currentAsk
    let potentialProfit :=
      if side = Side.SELL then (currentPrice - entryPrice) * amount
      else (entryPrice - currentPrice) * amount
    decide (potentialProfit < closeInfo.minProfitRequired)
  else
    closeInfo.isTimeout

/-! ## Risk manager (RiskManager) -/

structure RiskLimits where
  maxPositionSize : ℚ
  maxDailyLoss : ℚ
  maxConsecutiveLosses : ℚ
  maxDrawdown : ℚ
  cooldownPeriod : ℚ
  emergencyStopLoss : ℚ
deriving DecidableEq, Repr

structure RiskState where
  currentDrawdown : ℚ
  consecutiveLosses : ℚ
  dailyLoss : ℚ
  lastTradeTime : ℚ
  isInCooldown : Bool
  emergencyStopTriggered : Bool
deriving DecidableEq, Repr

structure RiskTradeEntry where
  timestamp : ℚ
  pnl : ℚ
  isMaker : Bool
deriving DecidableEq, Repr

structure RiskManager where
  limits : RiskLimits
  state : RiskState
  tradeHistory : List RiskTradeEntry
deriving DecidableEq, Repr

def RiskManager.init (limits : RiskLimits) : RiskManager :=
  { limits := limits
    state :=
      { currentDrawdown := 0
        consecutiveLosses := 0
        dailyLoss := 0
        lastTradeTime := 0
        isInCooldown := false
        emergencyStopTriggered := false }
    tradeHistory := [] }

/-- Rejection reasons of `canOpenPosition`; the source carries Chinese
reason strings, some with interpolated quantities, modelled here as
constructors with the interpolated quantities as arguments. -/
inductive OpenRejectReason where
  | emergencyStop
  | cooldown
  | positionSize (proposed max : ℚ)
  | consecutiveLosses (current max : ℚ)
  | dailyLoss (current max : ℚ)
  | drawdown (current max : ℚ)
deriving DecidableEq, Repr

structure CanOpenResult where
  allowed : Bool
  reason : Option OpenRejectReason
deriving DecidableEq, Repr

/- The source's cooldown gate is an early return nested inside
`if (isInCooldown)`; falling through when the window has elapsed makes
the gate the conjunction of the flag and the window check. -/
def canOpenPosition (m : RiskManager) (now proposedSize : ℚ) : CanOpenResult :=
  if m.state.emergencyStopTriggered then
    ⟨false, some OpenRejectReason.emergencyStop⟩
  else if m.state.isInCooldown ∧ now - m.state.lastTradeTime < m.limits.cooldownPeriod then
    ⟨false, some OpenRejectReason.cooldown⟩
  else if proposedSize > m.limits.maxPositionSize then
    ⟨false, some (OpenRejectReason.positionSize proposedSize m.limits.maxPositionSize)⟩
  else if m.state.consecutiveLosses ≥ m.limits.maxConsecutiveLosses then
    ⟨false, some (OpenRejectReason.consecutiveLosses m.state.consecutiveLosses
      m.limits.maxConsecutiveLosses)⟩
  else if m.state.dailyLoss ≥ m.limits.maxDailyLoss then
    ⟨false, some (OpenRejectReason.dailyLoss m.state.dailyLoss m.limits.maxDailyLoss)⟩
  else if m.state.currentDrawdown ≥ m.limits.maxDrawdown then
    ⟨false, some (OpenRejectReason.drawdown m.state.currentDrawdown m.limits.maxDrawdown)⟩
  else
    ⟨true, none⟩

structure DrawdownAcc where
  peak : ℚ
  currentPnl : ℚ
  maxDrawdown : ℚ

def drawdownStep (acc : DrawdownAcc) (pnl : ℚ) : DrawdownAcc :=
  let currentPnl := acc.currentPnl + pnl
  let peak := if currentPnl > acc.peak then currentPnl else acc.peak
  let drawdown := peak - currentPnl
  let maxDrawdown := if drawdown > acc.maxDrawdown then drawdown else acc.maxDrawdown
  ⟨peak, currentPnl, maxDrawdown⟩

/-- The loop body of `updateDrawdown`, as a fold over the recorded PnLs. -/
def computeDrawdown (pnls : List ℚ) : ℚ :=
  (pnls.foldl drawdownStep (⟨0, 0, 0⟩ : DrawdownAcc)).maxDrawdown

def tradePnls (history : List RiskTradeEntry) : List ℚ :=
  history.map (fun t => t.pnl)

def updateDrawdown (m : RiskManager) : RiskManager :=
  if m.tradeHistory.length = 0 then m
  else { m with state := { m.state with currentDrawdown := computeDrawdown (tradePnls m.tradeHistory) } }

def recordTrade (m : RiskManager) (now pnl : ℚ) (isMaker : Bool) : RiskManager :=
  let m1 := { m with tradeHistory := m.tradeHistory ++ [(⟨now, pnl, isMaker⟩ : RiskTradeEntry)] }
  let st1 := { m1.state with lastTradeTime := now }
  let st2 :=
    if pnl < 0 then
      { st1 with consecutiveLosses := st1.consecutiveLosses + 1, dailyLoss := st1.dailyLoss + |pnl| }
    else
      { st1 with consecutiveLosses := 0 }
  let m2 := updateDrawdown { m1 with state := st2 }
  let st3 :=
    if m2.state.currentDrawdown ≥ m2.limits.emergencyStopLoss then
      { m2.state with emergencyStopTriggered := true }
    else m2.state
  let st4 :=
    if st3.consecutiveLosses ≥ m2.limits.maxConsecutiveLosses then
      { st3 with isInCooldown := true }
    else st3
  { m2 with state := st4 }

def resetDailyStats (m : RiskManager) : RiskManager :=
  { m with state := { m.state with dailyLoss := 0, consecutiveLosses := 0, isInCooldown := false } }

def resetEmergencyStop (m : RiskManager) : RiskManager :=
  { m with state := { m.state with emergencyStopTriggered := false } }

/-- Fold a sequence of realized-trade outcomes through `recordTrade`,
starting from a freshly constructed manager. -/
def runTrades (limits : RiskLimits) (trades : List RiskTradeEntry) : RiskManager :=
  trades.foldl (fun m t => recordTrade m t.timestamp t.pnl t.isMaker) (RiskManager.init limits)

/-! ## Volume/velocity admission controller (VolumeStrategyOptimizer) -/

structure VolumeStrategyConfig where
  maxVolumePerMinute : ℚ
  targetVolumePerHour : ℚ
  minTradeInterval : ℚ
  maxPositionHoldTime : ℚ
  quickCloseThreshold : ℚ
  maxDrawdownPerTrade : ℚ
deriving DecidableEq, Repr

structure VolumeTradeEntry where
  timestamp : ℚ
  volume : ℚ
  pnl : ℚ
  holdTime : ℚ
  isMaker : Bool
deriving DecidableEq, Repr

structure VolumeStrategyOptimizer where
  config : VolumeStrategyConfig
  tradeHistory : List VolumeTradeEntry
  lastTradeTime : ℚ
deriving DecidableEq, Repr

def getRecentVolume (o : VolumeStrategyOptimizer) (now timeWindow : ℚ) : ℚ :=
  ((o.tradeHistory.filter (fun t => now - t.timestamp ≤ timeWindow)).map
    (fun t => t.volume)).sum

inductive VolumeRejectReason where
  | interval (elapsed min : ℚ)
  | volumeCap (total max : ℚ)
deriving DecidableEq, Repr

structure CanExecuteResult where
  allowed : Bool
  reason : Option VolumeRejectReason
  suggestedVolume : Option ℚ
deriving DecidableEq, Repr

def canExecuteTrade (o : VolumeStrategyOptimizer) (now proposedVolume : ℚ) : CanExecuteResult :=
  let timeSinceLastTrade := now - o.lastTradeTime
  if timeSinceLastTrade < o.config.minTradeInterval then
    ⟨false, some (VolumeRejectReason.interval timeSinceLastTrade o.config.minTradeInterval), none⟩
  else
    let recentVolume := getRecentVolume o now 60000
    if recentVolume + proposedVolume > o.config.maxVolumePerMinute then
      let suggestedVolume := max (1 / 1000 : ℚ) (o.config.maxVolumePerMinute - recentVolume)
      ⟨false,
        some (VolumeRejectReason.volumeCap (recentVolume + proposedVolume)
          o.config.maxVolumePerMinute),
        some suggestedVolume⟩
    else
      ⟨true, none, none⟩

def shouldQuickClose (o : VolumeStrategyOptimizer) (currentPnl holdTime : ℚ) : Bool :=
  if |currentPnl| ≥ o.config.quickCloseThreshold then true
  else if holdTime ≥ o.config.maxPositionHoldTime then true
  else if currentPnl ≤ -o.config.maxDrawdownPerTrade then true
  else false

/-! ## Resilient request layer (safeFetch / computeBackoff) -/

/-- `Math.floor(base * 2 ** attempt + jitter)` capped by the maximum delay;
the random draw `Math.random() * base` is passed in as `jitter`. -/
def computeBackoff (attempt : ℕ) (base maxDelay jitter : ℚ) : ℚ :=
  min maxDelay ((Int.floor (base * 2 ^ attempt + jitter) : ℤ) : ℚ)

/-- Outcome of one `fetch` attempt: a settled response with an HTTP status,
or a rejected promise (transport error). -/
inductive FetchResult where
  | response (status : ℕ)
  | transportError (err : ℕ)
deriving DecidableEq, Repr

/-- `response.ok`: status in the 2xx range. -/
def responseOk (status : ℕ) : Bool :=
  decide (200 ≤ status) && decide (status < 300)

def retryWorthy (retryStatuses : List ℕ) (r : FetchResult) : Bool :=
  match r with
  | FetchResult.response s => !responseOk s && retryStatuses.contains s
  | FetchResult.transportError _ => true

/-- The retry loop of `safeFetch`, with `attempt` the current attempt index
and `remaining = maxRetries - attempt` the retries still allowed; `outcomes i`
is the result of the `i`-th underlying `fetch`. Returns the final result
together with the total number of fetch attempts performed. -/
def safeFetchAux (retryStatuses : List ℕ) (outcomes : ℕ → FetchResult) :
    ℕ → ℕ → FetchResult × ℕ
  | attempt, 0 => (outcomes attempt, attempt + 1)
  | attempt, remaining + 1 =>
    if retryWorthy retryStatuses (outcomes attempt) then
      safeFetchAux retryStatuses outcomes (attempt + 1) remaining
    else
      (outcomes attempt, attempt + 1)

def safeFetch (retryStatuses : List ℕ) (maxRetries : ℕ) (outcomes : ℕ → FetchResult) :
    FetchResult × ℕ :=
  safeFetchAux retryStatuses outcomes 0 maxRetries

/-! ## Spec-side definitions

Definitions transcribed from the specification's words, for comparison
against the definitions above that embed the source. -/

/-- Spec: the running peak of cumulative PnL, with the peak initialised
to 0: the maximum of 0 and all cumulative prefix sums. -/
def runningPeakSpec (pnls : List ℚ) : ℚ :=
  (pnls.inits.map List.sum).foldl max 0

/-- Spec: the maximum over all prefixes of the recorded PnL sequence of
(running peak of cumulative PnL minus cumulative PnL). -/
def maxDrawdownSpec (pnls : List ℚ) : ℚ :=
  (pnls.inits.map (fun p => runningPeakSpec p - p.sum)).foldl max 0

/-- Spec: the six `canOpenPosition` gates in their stated priority order,
each paired with the reason it reports. -/
def gateListSpec (limits : RiskLimits) (st : RiskState) (now proposedSize : ℚ) :
    List (Bool × OpenRejectReason) :=
  [ (st.emergencyStopTriggered, OpenRejectReason.emergencyStop),
    (st.isInCooldown && decide (now - st.lastTradeTime < limits.cooldownPeriod),
      OpenRejectReason.cooldown),
    (decide (proposedSize > limits.maxPositionSize),
      OpenRejectReason.positionSize proposedSize limits.maxPositionSize),
    (decide (st.consecutiveLosses ≥ limits.maxConsecutiveLosses),
      OpenRejectReason.consecutiveLosses st.consecutiveLosses limits.maxConsecutiveLosses),
    (decide (st.dailyLoss ≥ limits.maxDailyLoss),
      OpenRejectReason.dailyLoss st.dailyLoss limits.maxDailyLoss),
    (decide (st.currentDrawdown ≥ limits.maxDrawdown),
      OpenRejectReason.drawdown st.currentDrawdown limits.maxDrawdown) ]

/-- Spec: reject with the reason of the first failing gate, otherwise allow. -/
def canOpenPositionGateSpec (limits : RiskLimits) (st : RiskState)
    (now proposedSize : ℚ) : CanOpenResult :=
  match (gateListSpec limits st now proposedSize).find? (fun g => g.1) with
  | some g => ⟨false, some g.2⟩
  | none => ⟨true, none⟩

/-! ## Claims about the fee-aware close strategy -/

/-- C3 counterexample: with `minProfitMargin = 0` (allowed by the claim's
`minProfitMargin ≥ 0`) and positive notional `100 × 1`, the returned
`minProfitRequired` equals `openFee + closeFee` exactly, so it does not
strictly exceed it. -/
theorem calculateClosePrice_margin_zero_not_strict :
    (0 : ℚ) ≤ 0 ∧ (0 : ℚ) < 100 * 1
    ∧ (calculateClosePrice ⟨0, 60000, true⟩ ⟨0, false⟩ 0 100 1 Side.SELL 99 101).minProfitRequired
      = 100 * 1 * LIMIT_MAKER + 100 * 1 * MARKET_TAKER
    ∧ ¬ (100 * 1 * LIMIT_MAKER + 100 * 1 * MARKET_TAKER
      < (calculateClosePrice ⟨0, 60000, true⟩ ⟨0, false⟩ 0 100 1 Side.SELL 99 101).minProfitRequired) := by
  norm_num [calculateClosePrice, LIMIT_MAKER, MARKET_TAKER]

/-- C3 (amended): for every non-timed-out `calculateClosePrice` call with
positive `entryPrice` and `amount`, the SELL-side close price never exceeds
`currentBid` and the BUY-side close price is never below `currentAsk`; the
returned `minProfitRequired` is at least `openFee + closeFee` on the entry
notional whenever `minProfitMargin ≥ 0`, strictly exceeding it whenever
`minProfitMargin > 0`. -/
theorem calculateClosePrice_bounds_and_fees (cfg : CloseStrategyConfig)
    (st : CloseStrategyState) (now entryPrice amount : ℚ) (side : Side)
    (currentBid currentAsk : ℚ)
    (hnt : st.isActive = false ∨ now - st.orderStartTime ≤ cfg.timeoutMs)
    (hentry : 0 < entryPrice) (hamt : 0 < amount) :
    (calculateClosePrice cfg st now entryPrice amount Side.SELL currentBid currentAsk).price
        ≤ currentBid
    ∧ currentAsk
        ≤ (calculateClosePrice cfg st now entryPrice amount Side.BUY currentBid currentAsk).price
    ∧ (0 ≤ cfg.minProfitMargin →
        entryPrice * amount * LIMIT_MAKER + entryPrice * amount * MARKET_TAKER
          ≤ (calculateClosePrice cfg st now entryPrice amount side currentBid
              currentAsk).minProfitRequired)
    ∧ (0 < cfg.minProfitMargin →
        entryPrice * amount * LIMIT_MAKER + entryPrice * amount * MARKET_TAKER
          < (calculateClosePrice cfg st now entryPrice amount side currentBid
              currentAsk).minProfitRequired) := by
  have hn : 0 < entryPrice * amount := mul_pos hentry hamt
  have hTO : (st.isActive && decide (now - st.orderStartTime > cfg.timeoutMs)) = false := by
    rcases hnt with h | h
    · simp [h]
    · simp [not_lt.mpr h]
  refine ⟨?_, ?_, ?_, ?_⟩
  · simp only [calculateClosePrice, hTO, Bool.false_and, Bool.false_eq_true, if_false, if_pos rfl]
    exact min_le_right _ _
  · have hside : (Side.BUY = Side.SELL) = False := by simp
    simp only [calculateClosePrice, hTO, Bool.false_and, Bool.false_eq_true, if_false, hside]
    exact le_max_right _ _
  · intro hm
    simp only [calculateClosePrice, hTO, Bool.false_and, Bool.false_eq_true, if_false]
    have := mul_nonneg hn.le hm
    linarith
  · intro hm
    simp only [calculateClosePrice, hTO, Bool.false_and, Bool.false_eq_true, if_false]
    have := mul_pos hn hm
    linarith

/-- Witness for the amended C3 at a concrete inactive-strategy call. -/
theorem calculateClosePrice_bounds_and_fees_witness :
    ((false : Bool) = false ∨ (0 : ℚ) - 0 ≤ 60000) ∧ (0 : ℚ) < 100 ∧ (0 : ℚ) < 1
    ∧ (calculateClosePrice ⟨1/10000, 60000, true⟩ ⟨0, false⟩ 0 100 1 Side.SELL 100.02
        100.03).price ≤ 100.02 := by
  refine ⟨Or.inl rfl, by norm_num, by norm_num, ?_⟩
  exact (calculateClosePrice_bounds_and_fees ⟨1/10000, 60000, true⟩ ⟨0, false⟩ 0 100 1
    Side.SELL 100.02 100.03 (Or.inl rfl) (by norm_num) (by norm_num)).1

/-- C6: for every non-timed-out close computation, `shouldUseMarketClose`
returns true iff the potential profit at the current best price is below the
computed `minProfitRequired`; and in the concrete scenario (entry 100,
amount 1, maker fee 0.0001, taker fee 0.00035, `minProfitMargin = 0.0001`,
`currentBid = 100.02`) the SELL close has `minProfitRequired = 0.055`,
close price `min 100.055 100.02 = 100.02`, and `shouldUseMarketClose` is
true. -/
theorem shouldUseMarketClose_iff_unprofitable :
    (∀ (cfg : CloseStrategyConfig) (st : CloseStrategyState)
      (now entryPrice amount : ℚ) (side : Side) (currentBid currentAsk : ℚ),
      st.isActive = false ∨ now - st.orderStartTime ≤ cfg.timeoutMs →
      (shouldUseMarketClose cfg st now entryPrice amount side currentBid currentAsk = true ↔
        (if side = Side.SELL then (currentBid - entryPrice) * amount
          else (entryPrice - currentAsk) * amount)
          < (calculateClosePrice cfg st now entryPrice amount side currentBid
              currentAsk).minProfitRequired))
    ∧ LIMIT_MAKER = 0.0001 ∧ MARKET_TAKER = 0.00035
    ∧ (calculateClosePrice ⟨0.0001, 60000, true⟩ ⟨0, false⟩ 0 100 1 Side.SELL 100.02
        100.03).minProfitRequired = 0.055
    ∧ (calculateClosePrice ⟨0.0001, 60000, true⟩ ⟨0, false⟩ 0 100 1 Side.SELL 100.02
        100.03).price = min 100.055 100.02
    ∧ (calculateClosePrice ⟨0.0001, 60000, true⟩ ⟨0, false⟩ 0 100 1 Side.SELL 100.02
        100.03).price = 100.02
    ∧ shouldUseMarketClose ⟨0.0001, 60000, true⟩ ⟨0, false⟩ 0 100 1 Side.SELL 100.02
        100.03 = true := by
  refine ⟨?_, by norm_num [LIMIT_MAKER], by norm_num [MARKET_TAKER],
    by norm_num [calculateClosePrice, LIMIT_MAKER, MARKET_TAKER],
    by norm_num [calculateClosePrice, LIMIT_MAKER, MARKET_TAKER],
    by norm_num [calculateClosePrice, LIMIT_MAKER, MARKET_TAKER],
    by norm_num [shouldUseMarketClose, calculateClosePrice, LIMIT_MAKER, MARKET_TAKER]⟩
  intro cfg st now entryPrice amount side currentBid currentAsk hnt
  have hTO : (st.isActive && decide (now - st.orderStartTime > cfg.timeoutMs)) = false := by
    rcases hnt with h | h
    · simp [h]
    · simp [not_lt.mpr h]
  cases side
  · simp [shouldUseMarketClose, calculateClosePrice, hTO]
  · simp [shouldUseMarketClose, calculateClosePrice, hTO]

/-- Witness for C6 at a concrete non-timed-out BUY-side computation. -/
theorem shouldUseMarketClose_iff_unprofitable_witness :
    ((false : Bool) = false ∨ (0 : ℚ) - 0 ≤ 60000)
    ∧ (shouldUseMarketClose ⟨0.0001, 60000, true⟩ ⟨0, false⟩ 0 100 1 Side.BUY 99.98
        100.03 = true ↔
      (if Side.BUY = Side.SELL then ((99.98 : ℚ) - 100) * 1 else (100 - 100.03) * 1)
        < (calculateClosePrice ⟨0.0001, 60000, true⟩ ⟨0, false⟩ 0 100 1 Side.BUY 99.98
            100.03).minProfitRequired) := by
  refine ⟨Or.inl rfl, ?_⟩
  exact shouldUseMarketClose_iff_unprofitable.1 ⟨0.0001, 60000, true⟩ ⟨0, false⟩ 0 100 1
    Side.BUY 99.98 100.03 (Or.inl rfl)

/-- C7: once `startCloseStrategy` has marked the strategy active at
`startTime` and `fallbackToOriginal` is configured, any price computation at
a time strictly past the timeout returns the current best price (bid for a
SELL close, ask for a BUY close) with `minProfitRequired = 0`, the timeout
flag set, and the original-strategy marker. -/
theorem calculateClosePrice_timeout_fallback (cfg : CloseStrategyConfig)
    (st0 : CloseStrategyState) (startTime now entryPrice amount : ℚ) (side : Side)
    (currentBid currentAsk : ℚ)
    (hfb : cfg.fallbackToOriginal = true)
    (htime : now - startTime > cfg.timeoutMs) :
    calculateClosePrice cfg (startCloseStrategy st0 startTime) now entryPrice amount side
        currentBid currentAsk
      = { side := side
          price := if side = Side.SELL then currentBid else currentAsk
          amount := amount
          minProfitRequired := 0
          isTimeout := true
          strategy := CloseStrategyKind.original } := by
  simp [calculateClosePrice, startCloseStrategy, hfb, htime]

/-- Witness for C7 at a concrete timed-out SELL close. -/
theorem calculateClosePrice_timeout_fallback_witness :
    ((true : Bool) = true) ∧ ((70000 : ℚ) - 0 > 60000)
    ∧ calculateClosePrice ⟨0.0001, 60000, true⟩ (startCloseStrategy ⟨0, false⟩ 0) 70000 100 1
        Side.SELL 100.02 100.03
      = { side := Side.SELL, price := 100.02, amount := 1, minProfitRequired := 0,
          isTimeout := true, strategy := CloseStrategyKind.original } := by
  refine ⟨rfl, by norm_num, ?_⟩
  have := calculateClosePrice_timeout_fallback ⟨0.0001, 60000, true⟩ ⟨0, false⟩ 0 70000 100 1
    Side.SELL 100.02 100.03 rfl (by norm_num)
  simpa using this

/-! ## Lemmas about the risk manager -/

theorem ite_gt_eq_max (a b : ℚ) : (if a < b then b else a) = max a b := by
  rcases le_or_lt b a with h | h
  · rw [if_neg (not_lt.mpr h), max_eq_left h]
  · rw [if_pos h, max_eq_right h.le]

theorem inits_concat (l : List ℚ) (x : ℚ) : (l ++ [x]).inits = l.inits ++ [l ++ [x]] := by
  simp [List.inits_append]

theorem runningPeakSpec_concat (l : List ℚ) (x : ℚ) :
    runningPeakSpec (l ++ [x]) = max (runningPeakSpec l) (l.sum + x) := by
  unfold runningPeakSpec
  rw [inits_concat, List.map_append, List.foldl_append]
  simp

theorem maxDrawdownSpec_concat (l : List ℚ) (x : ℚ) :
    maxDrawdownSpec (l ++ [x])
      = max (maxDrawdownSpec l) (runningPeakSpec (l ++ [x]) - (l.sum + x)) := by
  unfold maxDrawdownSpec
  rw [inits_concat, List.map_append, List.foldl_append]
  simp

theorem maxDrawdownSpec_mono_concat (l : List ℚ) (x : ℚ) :
    maxDrawdownSpec l ≤ maxDrawdownSpec (l ++ [x]) := by
  rw [maxDrawdownSpec_concat]
  exact le_max_left _ _

theorem drawdown_foldl_spec (l : List ℚ) :
    (l.foldl drawdownStep (⟨0, 0, 0⟩ : DrawdownAcc)).currentPnl = l.sum
    ∧ (l.foldl drawdownStep (⟨0, 0, 0⟩ : DrawdownAcc)).peak = runningPeakSpec l
    ∧ (l.foldl drawdownStep (⟨0, 0, 0⟩ : DrawdownAcc)).maxDrawdown = maxDrawdownSpec l := by
  induction l using List.reverseRecOn with
  | nil =>
    refine ⟨rfl, ?_, ?_⟩ <;> norm_num [runningPeakSpec, maxDrawdownSpec]
  | append_singleton l x ih =>
    obtain ⟨hc, hp, hm⟩ := ih
    rw [List.foldl_append]
    simp only [List.foldl_cons, List.foldl_nil]
    refine ⟨?_, ?_, ?_⟩
    · simp [drawdownStep, hc]
    · simp only [drawdownStep, gt_iff_lt]
      rw [hc, hp, runningPeakSpec_concat, ite_gt_eq_max]
    · simp only [drawdownStep, gt_iff_lt]
      rw [hc, hp, hm, ite_gt_eq_max, ite_gt_eq_max, maxDrawdownSpec_concat,
        runningPeakSpec_concat]

theorem computeDrawdown_eq_spec (l : List ℚ) : computeDrawdown l = maxDrawdownSpec l :=
  (drawdown_foldl_spec l).2.2

theorem tradePnls_append (h : List RiskTradeEntry) (e : RiskTradeEntry) :
    tradePnls (h ++ [e]) = tradePnls h ++ [e.pnl] := by
  simp [tradePnls]

theorem recordTrade_state (m : RiskManager) (now pnl : ℚ) (mk : Bool) :
    (recordTrade m now pnl mk).state =
      { currentDrawdown := computeDrawdown (tradePnls m.tradeHistory ++ [pnl])
        consecutiveLosses := if pnl < 0 then m.state.consecutiveLosses + 1 else 0
        dailyLoss := if pnl < 0 then m.state.dailyLoss + |pnl| else m.state.dailyLoss
        lastTradeTime := now
        isInCooldown :=
          if (if pnl < 0 then m.state.consecutiveLosses + 1 else 0)
              ≥ m.limits.maxConsecutiveLosses
          then true else m.state.isInCooldown
        emergencyStopTriggered :=
          if computeDrawdown (tradePnls m.tradeHistory ++ [pnl]) ≥ m.limits.emergencyStopLoss
          then true else m.state.emergencyStopTriggered } := by
  simp only [recordTrade, updateDrawdown]
  split_ifs <;> (simp_all [tradePnls]; try (exfalso; linarith))

theorem recordTrade_tradeHistory (m : RiskManager) (now pnl : ℚ) (mk : Bool) :
    (recordTrade m now pnl mk).tradeHistory
      = m.tradeHistory ++ [(⟨now, pnl, mk⟩ : RiskTradeEntry)] := by
  simp only [recordTrade, updateDrawdown]
  split_ifs <;> rfl

theorem recordTrade_limits (m : RiskManager) (now pnl : ℚ) (mk : Bool) :
    (recordTrade m now pnl mk).limits = m.limits := by
  simp only [recordTrade, updateDrawdown]
  split_ifs <;> rfl

theorem runTrades_concat (L : RiskLimits) (ts : List RiskTradeEntry) (t : RiskTradeEntry) :
    runTrades L (ts ++ [t]) = recordTrade (runTrades L ts) t.timestamp t.pnl t.isMaker := by
  simp [runTrades, List.foldl_append]

theorem runTrades_tradeHistory (L : RiskLimits) (ts : List RiskTradeEntry) :
    (runTrades L ts).tradeHistory = ts := by
  induction ts using List.reverseRecOn with
  | nil => rfl
  | append_singleton ts t ih =>
    rw [runTrades_concat, recordTrade_tradeHistory, ih]

theorem runTrades_limits (L : RiskLimits) (ts : List RiskTradeEntry) :
    (runTrades L ts).limits = L := by
  induction ts using List.reverseRecOn with
  | nil => rfl
  | append_singleton ts t ih =>
    rw [runTrades_concat, recordTrade_limits, ih]

theorem runTrades_drawdown (L : RiskLimits) (ts : List RiskTradeEntry) :
    (runTrades L ts).state.currentDrawdown = maxDrawdownSpec (tradePnls ts) := by
  induction ts using List.reverseRecOn with
  | nil =>
    norm_num [runTrades, RiskManager.init, maxDrawdownSpec, runningPeakSpec, tradePnls]
  | append_singleton ts t _ =>
    rw [runTrades_concat, recordTrade_state]
    simp only [runTrades_tradeHistory]
    rw [computeDrawdown_eq_spec, tradePnls_append]

theorem runTrades_emergency (L : RiskLimits) (ts : List RiskTradeEntry) :
    (runTrades L ts).state.emergencyStopTriggered = true
      ↔ (ts ≠ [] ∧ L.emergencyStopLoss ≤ maxDrawdownSpec (tradePnls ts)) := by
  induction ts using List.reverseRecOn with
  | nil =>
    simp [runTrades, RiskManager.init]
  | append_singleton ts t ih =>
    rw [runTrades_concat, recordTrade_state]
    simp only [runTrades_tradeHistory, runTrades_limits, ge_iff_le]
    rw [computeDrawdown_eq_spec, tradePnls_append]
    by_cases hge : L.emergencyStopLoss ≤ maxDrawdownSpec (tradePnls ts ++ [t.pnl])
    · simp [hge]
    · rw [if_neg hge]
      simp only [ih]
      constructor
      · rintro ⟨hne, hle⟩
        exact absurd (le_trans hle (by
          have := maxDrawdownSpec_mono_concat (tradePnls ts) t.pnl
          exact this)) hge
      · rintro ⟨-, hle⟩
        exact absurd hle hge

theorem recordTrade_emergency_persists (m : RiskManager) (now pnl : ℚ) (mk : Bool)
    (h : m.state.emergencyStopTriggered = true) :
    (recordTrade m now pnl mk).state.emergencyStopTriggered = true := by
  rw [recordTrade_state]
  simp [h]

/-! ## Claims about the risk manager -/

/-- C1: after any finite sequence of `recordTrade` calls from a fresh
manager, `currentDrawdown` equals the maximum over all prefixes of the
recorded PnL sequence of (running peak of cumulative PnL − cumulative PnL)
with the peak initialised to 0; the emergency latch is set iff that
drawdown reaches `emergencyStopLoss`; once set, further `recordTrade`
calls keep it set, and only `resetEmergencyStop` clears it. -/
theorem riskDrawdown_invariant (limits : RiskLimits) (trades : List RiskTradeEntry) :
    (runTrades limits trades).state.currentDrawdown = maxDrawdownSpec (tradePnls trades)
    ∧ (trades ≠ [] →
        ((runTrades limits trades).state.emergencyStopTriggered = true
          ↔ limits.emergencyStopLoss ≤ maxDrawdownSpec (tradePnls trades)))
    ∧ (∀ (m : RiskManager) (now pnl : ℚ) (mk : Bool),
        m.state.emergencyStopTriggered = true →
        (recordTrade m now pnl mk).state.emergencyStopTriggered = true)
    ∧ (∀ m : RiskManager, (resetEmergencyStop m).state.emergencyStopTriggered = false) := by
  refine ⟨runTrades_drawdown limits trades, ?_, recordTrade_emergency_persists, fun m => rfl⟩
  intro hne
  rw [runTrades_emergency]
  simp [hne]

/-- Witness for C1: one losing trade of −2 against an emergency stop of 1
latches the emergency flag. -/
theorem riskDrawdown_invariant_witness :
    ([(⟨0, -2, false⟩ : RiskTradeEntry)] ≠ [])
    ∧ ((runTrades ⟨100, 1000, 3, 1000, 60000, 1⟩
          [⟨0, -2, false⟩]).state.emergencyStopTriggered = true
        ↔ (1 : ℚ) ≤ maxDrawdownSpec (tradePnls [⟨0, -2, false⟩])) := by
  refine ⟨by simp, ?_⟩
  exact (riskDrawdown_invariant ⟨100, 1000, 3, 1000, 60000, 1⟩ [⟨0, -2, false⟩]).2.1 (by simp)

/-- C2 counterexample: a state violating the cooldown gate and the
daily-loss gate while the emergency latch is also set reports the
emergency-stop reason — not the cooldown reason — because the emergency
gate has higher priority. -/
theorem canOpenPosition_cooldown_preempted :
    canOpenPosition ⟨⟨100, 5, 3, 1000, 100, 50⟩, ⟨0, 0, 10, 0, true, true⟩, []⟩ 0 1
      = ⟨false, some OpenRejectReason.emergencyStop⟩
    ∧ ((⟨0, 0, 10, 0, true, true⟩ : RiskState).isInCooldown = true ∧ (0 : ℚ) - 0 < 100)
    ∧ ((10 : ℚ) ≥ 5)
    ∧ OpenRejectReason.emergencyStop ≠ OpenRejectReason.cooldown := by
  refine ⟨?_, ⟨rfl, by norm_num⟩, by norm_num, by simp⟩
  norm_num [canOpenPosition, CanOpenResult.mk.injEq]

/-- C2 (amended): `canOpenPosition` returns exactly the reason of the first
failing gate in the order (1) emergency stop, (2) active cooldown,
(3) position size, (4) loss streak, (5) daily loss, (6) drawdown; in
particular a state that passes the emergency gate and violates both the
cooldown and the daily-loss gates reports the cooldown reason. -/
theorem canOpenPosition_gate_order (m : RiskManager) (now proposedSize : ℚ) :
    canOpenPosition m now proposedSize
        = canOpenPositionGateSpec m.limits m.state now proposedSize
    ∧ (m.state.emergencyStopTriggered = false →
        m.state.isInCooldown = true →
        now - m.state.lastTradeTime < m.limits.cooldownPeriod →
        m.state.dailyLoss ≥ m.limits.maxDailyLoss →
        canOpenPosition m now proposedSize = ⟨false, some OpenRejectReason.cooldown⟩) := by
  constructor
  · by_cases h1 : m.state.emergencyStopTriggered = true
    · simp [canOpenPosition, canOpenPositionGateSpec, gateListSpec, h1]
    · have h1' : m.state.emergencyStopTriggered = false := by simpa using h1
      by_cases h2 : m.state.isInCooldown = true
          ∧ now - m.state.lastTradeTime < m.limits.cooldownPeriod
      · simp [canOpenPosition, canOpenPositionGateSpec, gateListSpec, h1', h2.1, h2.2]
      · have h2' : (m.state.isInCooldown
            && decide (now - m.state.lastTradeTime < m.limits.cooldownPeriod)) = false := by
          rcases not_and_or.mp h2 with h | h
          · simp only [Bool.not_eq_true] at h
            simp [h]
          · simp [h]
        by_cases h3 : proposedSize > m.limits.maxPositionSize
        · simp [canOpenPosition, canOpenPositionGateSpec, gateListSpec, h1', h2, h2', h3]
        · by_cases h4 : m.state.consecutiveLosses ≥ m.limits.maxConsecutiveLosses
          · simp [canOpenPosition, canOpenPositionGateSpec, gateListSpec, h1', h2, h2', h3, h4]
          · by_cases h5 : m.state.dailyLoss ≥ m.limits.maxDailyLoss
            · simp [canOpenPosition, canOpenPositionGateSpec, gateListSpec, h1', h2, h2', h3,
                h4, h5]
            · by_cases h6 : m.state.currentDrawdown ≥ m.limits.maxDrawdown
              · simp [canOpenPosition, canOpenPositionGateSpec, gateListSpec, h1', h2, h2',
                  h3, h4, h5, h6]
              · simp [canOpenPosition, canOpenPositionGateSpec, gateListSpec, h1', h2, h2',
                  h3, h4, h5, h6]
  · intro hem hcd htime _
    simp [canOpenPosition, hem, hcd, htime]

/-- Witness for the amended C2 at a concrete cooldown-and-daily-loss
violating state with the emergency latch clear. -/
theorem canOpenPosition_gate_order_witness :
    ((false : Bool) = false) ∧ ((true : Bool) = true) ∧ ((0 : ℚ) - 0 < 100) ∧ ((10 : ℚ) ≥ 5)
    ∧ canOpenPosition ⟨⟨100, 5, 3, 1000, 100, 50⟩, ⟨0, 0, 10, 0, true, false⟩, []⟩ 0 1
      = ⟨false, some OpenRejectReason.cooldown⟩ := by
  refine ⟨rfl, rfl, by norm_num, by norm_num, ?_⟩
  exact (canOpenPosition_gate_order ⟨⟨100, 5, 3, 1000, 100, 50⟩, ⟨0, 0, 10, 0, true, false⟩, []⟩
    0 1).2 rfl rfl (by norm_num) (by norm_num)

/-- C8 counterexample: with `maxConsecutiveLosses = 3` and three losing
trades just recorded, an immediate `canOpenPosition` call is rejected by
the higher-priority cooldown gate, so the reported reason is the cooldown
reason, not a loss-streak reason. -/
theorem lossStreak_reason_preempted_by_cooldown :
    (runTrades ⟨100, 1000, 3, 1000, 60000, 10⟩
        [⟨0, -1, false⟩, ⟨0, -1, false⟩, ⟨0, -1, false⟩]).state.isInCooldown = true
    ∧ canOpenPosition (runTrades ⟨100, 1000, 3, 1000, 60000, 10⟩
        [⟨0, -1, false⟩, ⟨0, -1, false⟩, ⟨0, -1, false⟩]) 0 1
      = ⟨false, some OpenRejectReason.cooldown⟩
    ∧ (∀ a b : ℚ, OpenRejectReason.cooldown ≠ OpenRejectReason.consecutiveLosses a b) := by
  refine ⟨?_, ?_, by intro a b h; exact OpenRejectReason.noConfusion h⟩
  · norm_num [runTrades, recordTrade, updateDrawdown, computeDrawdown, drawdownStep,
      tradePnls, RiskManager.init, List.foldl]
  · norm_num [canOpenPosition, runTrades, recordTrade, updateDrawdown, computeDrawdown,
      drawdownStep, tradePnls, RiskManager.init, List.foldl, CanOpenResult.mk.injEq]

/-- C8 (amended): with `maxConsecutiveLosses = 3`, after three losing
trades from a fresh manager (whose drawdown stays below the emergency
stop), the cooldown is active, and a `canOpenPosition` call made once the
cooldown window has elapsed, with an in-bounds proposed size, is rejected
with the loss-streak reason `consecutiveLosses 3 3`; within the cooldown
window the call is instead rejected with the cooldown reason. -/
theorem riskManager_loss_streak (L : RiskLimits) (t1 t2 t3 : RiskTradeEntry) (now size : ℚ)
    (hmax : L.maxConsecutiveLosses = 3)
    (h1 : t1.pnl < 0) (h2 : t2.pnl < 0) (h3 : t3.pnl < 0)
    (hem : maxDrawdownSpec [t1.pnl, t2.pnl, t3.pnl] < L.emergencyStopLoss)
    (hcd : ¬ (now - t3.timestamp < L.cooldownPeriod))
    (hsz : ¬ (size > L.maxPositionSize)) :
    (runTrades L [t1, t2, t3]).state.isInCooldown = true
    ∧ canOpenPosition (runTrades L [t1, t2, t3]) now size
      = ⟨false, some (OpenRejectReason.consecutiveLosses 3 3)⟩ := by
  have hdd3 : computeDrawdown [t1.pnl, t2.pnl, t3.pnl] < L.emergencyStopLoss := by
    rw [computeDrawdown_eq_spec]; exact hem
  have a2 : maxDrawdownSpec [t1.pnl, t2.pnl] ≤ maxDrawdownSpec [t1.pnl, t2.pnl, t3.pnl] := by
    simpa using maxDrawdownSpec_mono_concat [t1.pnl, t2.pnl] t3.pnl
  have a1 : maxDrawdownSpec [t1.pnl] ≤ maxDrawdownSpec [t1.pnl, t2.pnl] := by
    simpa using maxDrawdownSpec_mono_concat [t1.pnl] t2.pnl
  have hdd1 : computeDrawdown [t1.pnl] < L.emergencyStopLoss := by
    rw [computeDrawdown_eq_spec]; linarith
  have hdd2 : computeDrawdown [t1.pnl, t2.pnl] < L.emergencyStopLoss := by
    rw [computeDrawdown_eq_spec]; linarith
  have hm : runTrades L [t1, t2, t3]
      = recordTrade (recordTrade (recordTrade (RiskManager.init L)
          t1.timestamp t1.pnl t1.isMaker) t2.timestamp t2.pnl t2.isMaker)
          t3.timestamp t3.pnl t3.isMaker := rfl
  have hs1 : (recordTrade (RiskManager.init L) t1.timestamp t1.pnl t1.isMaker).state
      = { currentDrawdown := computeDrawdown [t1.pnl], consecutiveLosses := 1,
          dailyLoss := |t1.pnl|, lastTradeTime := t1.timestamp,
          isInCooldown := false, emergencyStopTriggered := false } := by
    rw [recordTrade_state]
    norm_num [RiskManager.init, tradePnls, h1, hmax, not_le.mpr hdd1]
  have hh1 : (recordTrade (RiskManager.init L) t1.timestamp t1.pnl t1.isMaker).tradeHistory
      = [t1] := by
    rw [recordTrade_tradeHistory]
    simp [RiskManager.init]
  have hl1 : (recordTrade (RiskManager.init L) t1.timestamp t1.pnl t1.isMaker).limits = L := by
    rw [recordTrade_limits]
    rfl
  have hs2 : (recordTrade (recordTrade (RiskManager.init L) t1.timestamp t1.pnl t1.isMaker)
        t2.timestamp t2.pnl t2.isMaker).state
      = { currentDrawdown := computeDrawdown [t1.pnl, t2.pnl], consecutiveLosses := 2,
          dailyLoss := |t1.pnl| + |t2.pnl|, lastTradeTime := t2.timestamp,
          isInCooldown := false, emergencyStopTriggered := false } := by
    rw [recordTrade_state, hs1, hh1, hl1]
    norm_num [tradePnls, h2, hmax, not_le.mpr hdd2]
  have hh2 : (recordTrade (recordTrade (RiskManager.init L) t1.timestamp t1.pnl t1.isMaker)
        t2.timestamp t2.pnl t2.isMaker).tradeHistory = [t1, t2] := by
    rw [recordTrade_tradeHistory, hh1]
    rfl
  have hl2 : (recordTrade (recordTrade (RiskManager.init L) t1.timestamp t1.pnl t1.isMaker)
        t2.timestamp t2.pnl t2.isMaker).limits = L := by
    rw [recordTrade_limits, hl1]
  have hs3 : (runTrades L [t1, t2, t3]).state
      = { currentDrawdown := computeDrawdown [t1.pnl, t2.pnl, t3.pnl], consecutiveLosses := 3,
          dailyLoss := |t1.pnl| + |t2.pnl| + |t3.pnl|, lastTradeTime := t3.timestamp,
          isInCooldown := true, emergencyStopTriggered := false } := by
    rw [hm, recordTrade_state, hs2, hh2, hl2]
    norm_num [tradePnls, h3, hmax, not_le.mpr hdd3]
  have hl3 : (runTrades L [t1, t2, t3]).limits = L := by
    rw [hm, recordTrade_limits, hl2]
  refine ⟨by rw [hs3], ?_⟩
  rw [canOpenPosition, hs3, hl3]
  norm_num [hcd, hsz, hmax]

/-- Witness for the amended C8: three −1 trades at time 0 against lenient
limits, queried at time 70000 (cooldown 60000 elapsed). -/
theorem riskManager_loss_streak_witness :
    ((⟨100, 1000, 3, 1000, 60000, 10⟩ : RiskLimits).maxConsecutiveLosses = 3)
    ∧ ((-1 : ℚ) < 0)
    ∧ maxDrawdownSpec [-1, -1, -1] < 10
    ∧ ¬ ((70000 : ℚ) - 0 < 60000)
    ∧ ¬ ((1 : ℚ) > 100)
    ∧ canOpenPosition (runTrades ⟨100, 1000, 3, 1000, 60000, 10⟩
        [⟨0, -1, false⟩, ⟨0, -1, false⟩, ⟨0, -1, false⟩]) 70000 1
      = ⟨false, some (OpenRejectReason.consecutiveLosses 3 3)⟩ := by
  have hdd : maxDrawdownSpec [(-1 : ℚ), -1, -1] < 10 := by
    norm_num [maxDrawdownSpec, runningPeakSpec, List.inits, List.foldl]
  refine ⟨rfl, by norm_num, hdd, by norm_num, by norm_num, ?_⟩
  exact (riskManager_loss_streak ⟨100, 1000, 3, 1000, 60000, 10⟩ ⟨0, -1, false⟩ ⟨0, -1, false⟩
    ⟨0, -1, false⟩ 70000 1 rfl (by norm_num) (by norm_num) (by norm_num) hdd
    (by norm_num) (by norm_num)).2

/-! ## Claims about the volume/velocity admission controller -/

/-- C5 counterexample: with the rolling 60-second volume already at the
100-per-minute cap and the interval gate passed, a proposed trade of 10 is
rejected with `suggestedVolume = max 0.001 (100 − 100) = 0.001`, and
`0.001 + 100 ≠ 100`: the suggestion plus the used volume overshoots the cap. -/
theorem canExecuteTrade_suggestion_overshoots_cap :
    canExecuteTrade ⟨⟨100, 5000, 1000, 30000, 1/1000, 2/1000⟩, [⟨0, 100, 0, 0, true⟩], 0⟩ 2000 10
      = ⟨false, some (VolumeRejectReason.volumeCap 110 100), some (1/1000)⟩
    ∧ getRecentVolume ⟨⟨100, 5000, 1000, 30000, 1/1000, 2/1000⟩, [⟨0, 100, 0, 0, true⟩], 0⟩
        2000 60000 = 100
    ∧ (1/1000 : ℚ) + 100 ≠ 100 := by
  norm_num [canExecuteTrade, getRecentVolume, List.filter, CanExecuteResult.mk.injEq,
    VolumeRejectReason.volumeCap.injEq]

/-- C5 (amended): `canExecuteTrade` returns `allowed = true` only when the
interval gate passes and the rolling 60-second volume plus the proposal does
not exceed `maxVolumePerMinute`; on a volume-cap rejection the suggestion is
`max 0.001 (cap − usedVolume)`, so the suggestion plus the used volume
equals the cap exactly whenever the remaining headroom is at least 0.001. -/
theorem canExecuteTrade_cap (o : VolumeStrategyOptimizer) (now proposedVolume : ℚ) :
    ((canExecuteTrade o now proposedVolume).allowed = true →
      o.config.minTradeInterval ≤ now - o.lastTradeTime
      ∧ getRecentVolume o now 60000 + proposedVolume ≤ o.config.maxVolumePerMinute)
    ∧ (o.config.minTradeInterval ≤ now - o.lastTradeTime →
      o.config.maxVolumePerMinute < getRecentVolume o now 60000 + proposedVolume →
      (canExecuteTrade o now proposedVolume).suggestedVolume
          = some (max (1/1000) (o.config.maxVolumePerMinute - getRecentVolume o now 60000))
      ∧ ((1/1000 : ℚ) ≤ o.config.maxVolumePerMinute - getRecentVolume o now 60000 →
        ∃ s, (canExecuteTrade o now proposedVolume).suggestedVolume = some s
          ∧ s + getRecentVolume o now 60000 = o.config.maxVolumePerMinute)) := by
  constructor
  · intro hallow
    by_cases hint : now - o.lastTradeTime < o.config.minTradeInterval
    · simp [canExecuteTrade, hint] at hallow
    · by_cases hcap : getRecentVolume o now 60000 + proposedVolume > o.config.maxVolumePerMinute
      · simp [canExecuteTrade, hint, hcap] at hallow
      · exact ⟨not_lt.mp hint, not_lt.mp hcap⟩
  · intro hint hcap
    have hint' : ¬ (now - o.lastTradeTime < o.config.minTradeInterval) := not_lt.mpr hint
    constructor
    · simp [canExecuteTrade, hint', hcap]
    · intro hroom
      refine ⟨max (1/1000) (o.config.maxVolumePerMinute - getRecentVolume o now 60000),
        by simp [canExecuteTrade, hint', hcap], ?_⟩
      rw [max_eq_right hroom]
      ring

/-- Witness for the amended C5: a concrete rejection with headroom 40 above
0.001, whose suggestion tops the window back up to the cap exactly. -/
theorem canExecuteTrade_cap_witness :
    ((1000 : ℚ) ≤ 2000 - 0) ∧ ((100 : ℚ) < 60 + 50)
    ∧ ((1/1000 : ℚ) ≤ 100 - 60)
    ∧ (∃ s, (canExecuteTrade ⟨⟨100, 5000, 1000, 30000, 1/1000, 2/1000⟩,
        [⟨0, 60, 0, 0, true⟩], 0⟩ 2000 50).suggestedVolume = some s
      ∧ s + getRecentVolume ⟨⟨100, 5000, 1000, 30000, 1/1000, 2/1000⟩,
          [⟨0, 60, 0, 0, true⟩], 0⟩ 2000 60000 = 100) := by
  have hvol : getRecentVolume ⟨⟨100, 5000, 1000, 30000, 1/1000, 2/1000⟩,
      [⟨0, 60, 0, 0, true⟩], 0⟩ 2000 60000 = 60 := by
    norm_num [getRecentVolume, List.filter]
  refine ⟨by norm_num, by norm_num, by norm_num, ?_⟩
  exact ((canExecuteTrade_cap ⟨⟨100, 5000, 1000, 30000, 1/1000, 2/1000⟩,
      [⟨0, 60, 0, 0, true⟩], 0⟩ 2000 50).2
    (by norm_num) (by rw [hvol]; norm_num)).2 (by rw [hvol]; norm_num)

/-! ## Lemmas about the resilient request layer -/

theorem safeFetchAux_attempts_le (rs : List ℕ) (outcomes : ℕ → FetchResult) :
    ∀ (remaining attempt : ℕ),
      (safeFetchAux rs outcomes attempt remaining).2 ≤ attempt + remaining + 1 := by
  intro remaining
  induction remaining with
  | zero => intro attempt; simp [safeFetchAux]
  | succ n ih =>
    intro attempt
    by_cases h : retryWorthy rs (outcomes attempt) = true
    · simp only [safeFetchAux, h, if_true]
      have := ih (attempt + 1)
      omega
    · have h' : retryWorthy rs (outcomes attempt) = false := by simpa using h
      simp only [safeFetchAux, h', Bool.false_eq_true, if_false]
      omega

theorem safeFetchAux_first (rs : List ℕ) (outcomes : ℕ → FetchResult) :
    ∀ (k remaining attempt : ℕ), k ≤ remaining →
      (∀ i, i < k → retryWorthy rs (outcomes (attempt + i)) = true) →
      retryWorthy rs (outcomes (attempt + k)) = false →
      safeFetchAux rs outcomes attempt remaining = (outcomes (attempt + k), attempt + k + 1) := by
  intro k
  induction k with
  | zero =>
    intro remaining attempt _ _ hret
    simp only [Nat.add_zero] at hret
    cases remaining with
    | zero => simp [safeFetchAux]
    | succ n => simp [safeFetchAux, hret]
  | succ j ih =>
    intro remaining attempt hk hbefore hret
    cases remaining with
    | zero => omega
    | succ n =>
      have h0 : retryWorthy rs (outcomes attempt) = true := by
        have := hbefore 0 (by omega)
        simpa using this
      simp only [safeFetchAux, h0, if_true]
      have hbefore' : ∀ i, i < j → retryWorthy rs (outcomes (attempt + 1 + i)) = true := by
        intro i hi
        have := hbefore (i + 1) (by omega)
        rwa [show attempt + (i + 1) = attempt + 1 + i by omega] at this
      have hret' : retryWorthy rs (outcomes (attempt + 1 + j)) = false := by
        rwa [show attempt + (j + 1) = attempt + 1 + j by omega] at hret
      rw [show attempt + (j + 1) = attempt + 1 + j by omega]
      exact ih n (attempt + 1) (by omega) hbefore' hret'

theorem safeFetchAux_exhausted (rs : List ℕ) (outcomes : ℕ → FetchResult) :
    ∀ (remaining attempt : ℕ),
      (∀ i, i < remaining → retryWorthy rs (outcomes (attempt + i)) = true) →
      safeFetchAux rs outcomes attempt remaining
        = (outcomes (attempt + remaining), attempt + remaining + 1) := by
  intro remaining
  induction remaining with
  | zero => intro attempt _; simp [safeFetchAux]
  | succ n ih =>
    intro attempt hall
    have h0 : retryWorthy rs (outcomes attempt) = true := by
      have := hall 0 (by omega)
      simpa using this
    simp only [safeFetchAux, h0, if_true]
    have hall' : ∀ i, i < n → retryWorthy rs (outcomes (attempt + 1 + i)) = true := by
      intro i hi
      have := hall (i + 1) (by omega)
      rwa [show attempt + (i + 1) = attempt + 1 + i by omega] at this
    rw [show attempt + (n + 1) = attempt + 1 + n by omega]
    exact ih (attempt + 1) hall'

theorem computeBackoff_jitter_form (n base : ℕ) (maxDelay jitter : ℚ)
    (h0 : 0 ≤ jitter) (h1 : jitter < (base : ℚ)) :
    ∃ j, 0 ≤ j ∧ j < (base : ℚ)
      ∧ computeBackoff n (base : ℚ) maxDelay jitter = min maxDelay ((base : ℚ) * 2 ^ n + j) := by
  refine ⟨((⌊jitter⌋ : ℤ) : ℚ), ?_, ?_, ?_⟩
  · exact_mod_cast Int.floor_nonneg.mpr h0
  · exact lt_of_le_of_lt (Int.floor_le jitter) h1
  · have hcast : (base : ℚ) * 2 ^ n + jitter = (((base * 2 ^ n : ℕ) : ℤ) : ℚ) + jitter := by
      push_cast
      ring
    rw [computeBackoff, hcast, Int.floor_int_add]
    congr 1
    push_cast
    ring

/-! ## Claims about the resilient request layer -/

/-- C4 counterexample: with the (degenerate but configurable) retryable
status set `[200]`, a first response with status 200 is `ok`, so the loop
returns it on attempt 1 without retrying even though its status lies inside
the retryable set and retries remained — contradicting "returns the first
response whose status is outside the configured retryable-status set". -/
theorem safeFetch_ok_retryable_status_returned :
    safeFetch [200] 3 (fun _ => FetchResult.response 200) = (FetchResult.response 200, 1)
    ∧ List.contains [200] 200 = true
    ∧ (1 : ℕ) < 3 + 1 := by
  refine ⟨?_, by decide, by decide⟩
  simp [safeFetch, safeFetchAux, retryWorthy, responseOk]

/-- C4 (amended): with `maxRetries = N`, `safeFetch` performs at most
`N + 1` fetch attempts; it returns the first response that is `ok` (2xx) or
has a non-retryable status — when no retryable status is in the 2xx range
this is exactly the first response outside the retryable set — and after
exhausting retries on retry-worthy outcomes it returns the last response or
propagates the last transport error; the backoff before retry `n` equals
`min maxDelayMs (baseDelayMs * 2^n + jitter)` for some jitter in
`[0, baseDelayMs)`, for an integer `baseDelayMs` (the floor applied by the
code is absorbed into the jitter). -/
theorem safeFetch_retry_contract (rs : List ℕ) (N : ℕ) (outcomes : ℕ → FetchResult) :
    (safeFetch rs N outcomes).2 ≤ N + 1
    ∧ (∀ k, k ≤ N → (∀ i, i < k → retryWorthy rs (outcomes i) = true) →
        retryWorthy rs (outcomes k) = false →
        safeFetch rs N outcomes = (outcomes k, k + 1))
    ∧ ((∀ i, i < N → retryWorthy rs (outcomes i) = true) →
        safeFetch rs N outcomes = (outcomes N, N + 1))
    ∧ (∀ (n base : ℕ) (maxDelay jitter : ℚ), 0 ≤ jitter → jitter < (base : ℚ) →
        ∃ j, 0 ≤ j ∧ j < (base : ℚ)
          ∧ computeBackoff n (base : ℚ) maxDelay jitter
            = min maxDelay ((base : ℚ) * 2 ^ n + j)) := by
  refine ⟨?_, ?_, ?_, ?_⟩
  · have := safeFetchAux_attempts_le rs outcomes N 0
    simpa [safeFetch] using this
  · intro k hk hbefore hret
    have := safeFetchAux_first rs outcomes k N 0 hk
      (by intro i hi; simpa using hbefore i hi) (by simpa using hret)
    simpa [safeFetch] using this
  · intro hall
    have := safeFetchAux_exhausted rs outcomes N 0
      (by intro i hi; simpa using hall i hi)
    simpa [safeFetch] using this
  · intro n base maxDelay jitter h0 h1
    exact computeBackoff_jitter_form n base maxDelay jitter h0 h1

/-- Witness for the amended C4: three attempts on a persistently retryable
status 500 with `maxRetries = 2`, returning the last response. -/
theorem safeFetch_retry_contract_witness :
    retryWorthy [500] (FetchResult.response 500) = true
    ∧ safeFetch [500] 2 (fun _ => FetchResult.response 500) = (FetchResult.response 500, 3) := by
  refine ⟨by decide, ?_⟩
  exact (safeFetch_retry_contract [500] 2 (fun _ => FetchResult.response 500)).2.2.1
    (fun i _ => by show retryWorthy [500] (FetchResult.response 500) = true; decide)

/-! ## Claims about position PnL -/

/-- C9: for every open position with nonzero `positionAmt` and an available
mark price (best bid for a long, best ask for a short), the gross PnL is
`(markPrice − entryPrice) × |positionAmt|` for a long and
`(entryPrice − markPrice) × |positionAmt|` for a short, and the net PnL is
that gross PnL minus the caller-supplied total-fees figure. -/
theorem computeGrossPnl_signed_and_net (position : PositionSnapshot)
    (bestBid bestAsk : Option ℚ) (totalFees p : ℚ) :
    (position.positionAmt > 0 → bestBid = some p →
      computeGrossPnl position bestBid bestAsk
        = (p - position.entryPrice) * |position.positionAmt|)
    ∧ (position.positionAmt < 0 → bestAsk = some p →
      computeGrossPnl position bestBid bestAsk
        = (position.entryPrice - p) * |position.positionAmt|)
    ∧ (position.positionAmt ≠ 0 →
      (if position.positionAmt > 0 then bestBid else bestAsk) = some p →
      computePositionPnl position bestBid bestAsk totalFees
        = computeGrossPnl position bestBid bestAsk - totalFees) := by
  refine ⟨?_, ?_, ?_⟩
  · intro hpos hbid
    simp [computeGrossPnl, hpos, hbid]
  · intro hneg hask
    simp [computeGrossPnl, not_lt.mpr hneg.le, lt_irrefl, hask, if_neg (lt_asymm hneg)]
  · intro _ hprice
    by_cases hpos : position.positionAmt > 0
    · simp only [if_pos hpos] at hprice
      simp [computeGrossPnl, computePositionPnl, hpos, hprice]
    · simp only [if_neg hpos] at hprice
      simp [computeGrossPnl, computePositionPnl, hpos, hprice]

/-- Witness for C9 at a concrete long position. -/
theorem computeGrossPnl_signed_and_net_witness :
    ((1 : ℚ) > 0 ∧ (some (105 : ℚ)) = some (105 : ℚ))
    ∧ computeGrossPnl ⟨"BTCUSDT", 1, 100⟩ (some 105) (some 106) = (105 - 100) * |(1 : ℚ)| := by
  refine ⟨⟨by norm_num, rfl⟩, ?_⟩
  exact (computeGrossPnl_signed_and_net ⟨"BTCUSDT", 1, 100⟩ (some 105) (some 106) 0 105).1
    (by norm_num) rfl

/-- C10: whenever the reference price selected for the position (best bid
for a long, best ask otherwise) is absent or non-finite, both PnL helpers
return exactly 0. -/
theorem computePnl_total_on_missing_price (position : PositionSnapshot)
    (bestBid bestAsk : Option ℚ) (totalFees : ℚ)
    (h : (if position.positionAmt > 0 then bestBid else bestAsk) = none) :
    computeGrossPnl position bestBid bestAsk = 0
    ∧ computePositionPnl position bestBid bestAsk totalFees = 0 := by
  constructor
  · simp only [computeGrossPnl, h]
  · simp only [computePositionPnl, h]

/-- Witness for C10: a short position with a missing best ask. -/
theorem computePnl_total_on_missing_price_witness :
    ((if ((-2 : ℚ)) > 0 then some (100 : ℚ) else none) = none)
    ∧ computeGrossPnl ⟨"BTCUSDT", -2, 100⟩ (some 100) none = 0
    ∧ computePositionPnl ⟨"BTCUSDT", -2, 100⟩ (some 100) none 7 = 0 := by
  have h : (if ((-2 : ℚ)) > 0 then some (100 : ℚ) else none) = none := by norm_num
  have := computePnl_total_on_missing_price ⟨"BTCUSDT", -2, 100⟩ (some 100) none 7 h
  exact ⟨h, this.1, this.2⟩

end RitmexBot
